import Mathlib

/-!
Verification development for the GitLab MCP session/transport gateway
(`src/GitLab-MCP-Server/index.ts`).  The TypeScript source is shallowly
embedded: each embedded definition mirrors the corresponding source
function; environmental effects (upstream fetch results, transport
handshake outcomes, the scheduler) are passed in as explicit parameters.
Timestamps are `Nat` milliseconds (`Date.now()`); the `Map` of sessions is
an association list in insertion order (`Map.set` on a fresh key appends,
on an existing key replaces in place; `Map.delete` removes the key).
-/

namespace GitlabMcp

/-- Mirror of `interface SessionInfo` (the `transport` object itself is
environmental; its behaviour enters through explicit parameters). -/
structure SessionInfo where
  lastActivity : Nat
  connected : Bool
  gitlabToken : String
  createdAt : Nat
deriving DecidableEq, Repr

/-- `const sessions = new Map<string, SessionInfo>()`, in insertion order. -/
abbrev Store := List (String × SessionInfo)

/-- `const GITLAB_API_URL = process.env.GITLAB_API_URL || "https://gitlab.com/api/v4"`
(default value; the env override only changes the URL prefix string). -/
def GITLAB_API_URL : String := "https://gitlab.com/api/v4"

/-- JavaScript string truthiness for an optional string: `undefined` and
`""` are falsy, every other string is truthy. -/
def truthy : Option String → Option String
  | none => none
  | some t => if t = "" then none else some t

/-- `Map.get`: first binding of the key, if any. -/
def lookupSession : Store → String → Option SessionInfo
  | [], _ => none
  | (k, v) :: rest, sid => if k = sid then some v else lookupSession rest sid

/-- In-place mutation of the `SessionInfo` object held under an existing
key (the handlers mutate `sessionInfo` fields directly, which updates the
entry the `Map` already holds). -/
def updateSession : Store → String → SessionInfo → Store
  | [], _, _ => []
  | (k, v) :: rest, sid, nv =>
    if k = sid then (k, nv) :: rest else (k, v) :: updateSession rest sid nv

/-- `Map.set` on a fresh key (the server only ever inserts freshly
generated UUIDs): appends at the end. -/
def insertSession (store : Store) (sid : String) (info : SessionInfo) : Store :=
  store ++ [(sid, info)]

/-- `Map.delete`: removes the key. -/
def eraseSession : Store → String → Store
  | [], _ => []
  | (k, v) :: rest, sid =>
    if k = sid then eraseSession rest sid else (k, v) :: eraseSession rest sid

/-! ## Credential extraction (`extractGitlabToken`, index.ts lines 116-125) -/

/-- Characters matched by the regex class `\s` (the common set; the exotic
Unicode space code points are not needed by any header value considered
here). -/
def isWs (c : Char) : Bool :=
  c = ' ' || c = '\t' || c = '\n' || c = '\r' ||
  c = Char.ofNat 11 || c = Char.ofNat 12

/-- Match of the regex `^Bearer\s+` (case-insensitive) against a character
list: on success returns the remainder after the matched (greedy) span. -/
def dropBearer (cs : List Char) : Option (List Char) :=
  match cs with
  | c1 :: c2 :: c3 :: c4 :: c5 :: c6 :: rest =>
    if c1.toLower = 'b' ∧ c2.toLower = 'e' ∧ c3.toLower = 'a' ∧
       c4.toLower = 'r' ∧ c5.toLower = 'e' ∧ c6.toLower = 'r' then
      match rest with
      | c :: rest2 => if isWs c then some (rest2.dropWhile isWs) else none
      | [] => none
    else none
  | _ => none

/-- `value.replace(/^Bearer\s+/i, "")`: strips a leading case-insensitive
`Bearer` followed by whitespace; a value without that leading pattern is
returned verbatim. -/
def stripBearer (s : String) : String :=
  match dropBearer s.data with
  | some rest => String.mk rest
  | none => s

/-- Whether the regex `^Bearer\s+` matches the value at all. -/
def hasBearerStart (s : String) : Bool :=
  (dropBearer s.data).isSome

/-- The HTTP request surface the gateway reads: the four credential
sources, the `mcp-session-id` header, and whether the body is an
`initialize` JSON-RPC message (`isInitializeRequest(req.body)`). -/
structure HttpRequest where
  xGitlabToken : Option String
  gitlabTokenHeader : Option String
  authorization : Option String
  bodyGitlabToken : Option String
  bodyIsInitialize : Bool
  sessionIdHeader : Option String
deriving DecidableEq, Repr

/-- JavaScript `a || b || c || d || null` over optional strings: the first
truthy (present and non-empty) value wins. -/
def firstTruthy : List (Option String) → Option String
  | [] => none
  | x :: xs =>
    match truthy x with
    | some t => some t
    | none => firstTruthy xs

/-- Mirror of `extractGitlabToken(req)`: `x-gitlab-token` header, then
`gitlab-token` header, then `authorization` with `^Bearer\s+` stripped,
then `body.gitlab_token`, else null. -/
def extractGitlabToken (req : HttpRequest) : Option String :=
  firstTruthy
    [req.xGitlabToken, req.gitlabTokenHeader,
     req.authorization.map stripBearer, req.bodyGitlabToken]

/-! ## Token validation (`validateGitlabToken`, index.ts lines 127-140) -/

/-- Outcome of one `fetch` as the environment resolves it: an HTTP
response with a status, or a rejected promise (network failure or the
like). -/
inductive FetchResult where
  | success (status : Nat) (body : String)
  | networkError (msg : String)
deriving DecidableEq, Repr

/-- `response.ok`: status in the 2xx range. -/
def responseOk (status : Nat) : Bool :=
  200 ≤ status && status ≤ 299

/-- One upstream HTTP call as recorded in an effect trace. -/
structure UpstreamCall where
  method : String
  url : String
  bearerToken : Option String
deriving DecidableEq, Repr

/-- The single upstream call `validateGitlabToken(token)` issues:
an authenticated `GET ${GITLAB_API_URL}/user`. -/
def validateGitlabTokenCalls (token : String) : List UpstreamCall :=
  [⟨"GET", GITLAB_API_URL ++ "/user", some token⟩]

/-- Mirror of `validateGitlabToken`'s result given the environment's
fetch outcome: `response.ok` on a response, `false` when the promise
rejects (the `catch` block logs and returns `false`); the function is
total, so no exception crosses this boundary. -/
def validateGitlabToken (token : String) (r : FetchResult) : Bool :=
  match token, r with
  | _, FetchResult.success st _ => responseOk st
  | _, FetchResult.networkError _ => false

/-! ## POST /mcp handler (index.ts lines 733-866) -/

/-- Observable outcome of the POST /mcp express handler: the HTTP status
written on the early-error paths (200 standing for "forwarded to
`transport.handleRequest`"), the session map afterwards, the
`mcp-session-id` response header if set, and the token placed into the
request context just before `handleRequest` (none on error paths, which
return before the context assignment). -/
structure PostOutcome where
  status : Nat
  store : Store
  sessionHeader : Option String
  contextToken : Option String
deriving DecidableEq, Repr

/-- Mirror of the `app.post("/mcp")` handler.  `fetchUser t` is how the
environment resolves the `fetch` inside `validateGitlabToken(t)`; `now`
is `Date.now()`; `newSessionId` is the `randomUUID()` drawn on the
creation path. -/
def handleMcpPost (store : Store) (req : HttpRequest)
    (fetchUser : String → FetchResult) (now : Nat)
    (newSessionId : String) : PostOutcome :=
  let gitlabToken := extractGitlabToken req
  match truthy req.sessionIdHeader with
  | some sid =>
    match lookupSession store sid with
    | some info =>
      let info1 : SessionInfo := { info with lastActivity := now }
      let store1 := updateSession store sid info1
      match gitlabToken with
      | some tok =>
        if tok ≠ info1.gitlabToken then
          if validateGitlabToken tok (fetchUser tok) then
            { status := 200,
              store := updateSession store1 sid { info1 with gitlabToken := tok },
              sessionHeader := none, contextToken := some tok }
          else
            { status := 401, store := store1,
              sessionHeader := none, contextToken := none }
        else
          { status := 200, store := store1,
            sessionHeader := none, contextToken := some info1.gitlabToken }
      | none =>
        { status := 200, store := store1,
          sessionHeader := none, contextToken := some info1.gitlabToken }
    | none =>
      { status := 400, store := store, sessionHeader := none, contextToken := none }
  | none =>
    if req.bodyIsInitialize then
      match gitlabToken with
      | none =>
        { status := 401, store := store, sessionHeader := none, contextToken := none }
      | some tok =>
        if validateGitlabToken tok (fetchUser tok) then
          { status := 200,
            store := insertSession store newSessionId
              { lastActivity := now, connected := true,
                gitlabToken := tok, createdAt := now },
            sessionHeader := some newSessionId, contextToken := some tok }
        else
          { status := 401, store := store, sessionHeader := none, contextToken := none }
    else
      { status := 400, store := store, sessionHeader := none, contextToken := none }

/-! ## DELETE /mcp handler (index.ts lines 952-983) -/

/-- Mirror of the `app.delete("/mcp")` handler.  `handshakeOk sid` is
whether `sessionInfo.transport.handleRequest(req, res)` resolves without
throwing for that session.  Result: (HTTP status, session map after). -/
def handleMcpDelete (store : Store) (sessionIdHeader : Option String)
    (handshakeOk : String → Bool) : Nat × Store :=
  match truthy sessionIdHeader with
  | none => (400, store)
  | some sid =>
    match lookupSession store sid with
    | none => (404, store)
    | some _ =>
      if handshakeOk sid then (200, eraseSession store sid)
      else (500, store)

/-! ## Periodic sweep (index.ts lines 679-695) -/

/-- `const TIMEOUT = 30 * 60 * 1000` inside the sweep callback. -/
def sweepTimeoutMs : Nat := 30 * 60 * 1000

/-- The interval argument of `setInterval(..., 5 * 60 * 1000)`. -/
def sweepIntervalMs : Nat := 5 * 60 * 1000

/-- One sweep tick over the session map.  `closeFails sid` is whether
`session.transport.close()` throws for that session (the `catch` only
logs).  Returns the surviving map and the list of session ids whose close
raised (the logged errors). -/
def sweepTick (now : Nat) (closeFails : String → Bool) :
    Store → Store × List String
  | [] => ([], [])
  | (sid, info) :: rest =>
    let r := sweepTick now closeFails rest
    if now - info.lastActivity > sweepTimeoutMs then
      (r.1, (if closeFails sid then [sid] else []) ++ r.2)
    else ((sid, info) :: r.1, r.2)

/-! ## GET /sessions listing (index.ts lines 720-730) -/

/-- JSON values occurring in the listing (timestamps are rendered through
`new Date(n).toISOString()`, an injective rendering of the underlying
millisecond count, kept here as the number itself). -/
inductive JVal where
  | s (v : String)
  | b (v : Bool)
  | n (v : Nat)
deriving DecidableEq, Repr

/-- One element of the `sessionList` array: the five fields the handler
builds, `hasToken` being `!!info.gitlabToken` (string truthiness). -/
def sessionEntry (id : String) (info : SessionInfo) : List (String × JVal) :=
  [("id", JVal.s id),
   ("lastActivity", JVal.n info.lastActivity),
   ("createdAt", JVal.n info.createdAt),
   ("connected", JVal.b info.connected),
   ("hasToken", JVal.b (!(info.gitlabToken == "")))]

/-- Mirror of the `app.get("/sessions")` handler body:
`{ sessions: sessionList, total: sessions.size }`. -/
def listSessions (store : Store) : List (List (String × JVal)) × Nat :=
  (store.map (fun p => sessionEntry p.1 p.2), store.length)

/-- Every stored credential is non-empty: the invariant every reachable
session map satisfies, because the POST handler stores only tokens that
passed the truthiness chain in `extractGitlabToken`. -/
def TokensNonEmpty (store : Store) : Prop :=
  ∀ p ∈ store, p.2.gitlabToken ≠ ""

/-- Two session maps identical except possibly for the stored credential
strings: same ids in the same order, same timestamps, same connected
flags. -/
def SameShape : Store → Store → Prop :=
  List.Forall₂ (fun p q =>
    p.1 = q.1 ∧ p.2.lastActivity = q.2.lastActivity ∧
    p.2.createdAt = q.2.createdAt ∧ p.2.connected = q.2.connected)

/-! ## The process-wide request context (index.ts lines 95-114, 842-865)

`let currentContext: RequestContext = {}` is a single module-level mutable
variable.  Each POST handler assigns it just before awaiting
`transport.handleRequest` and resets it in `finally`; tool handlers read
it through `getTokenFromContext()` after the transport's own awaits.  The
interleaving of two in-flight calls is modelled by a scheduler choosing
which call performs its next step. -/

/-- Mirror of `interface RequestContext`. -/
structure RequestContext where
  sessionId : Option String
  gitlabToken : Option String
deriving DecidableEq, Repr

/-- The reset value `{}` (both fields undefined). -/
def emptyContext : RequestContext := ⟨none, none⟩

/-- Mirror of `getTokenFromContext()`: prefer the context's own token
(truthiness check), else look the context's session id up in the map;
the `throw` at the end is modelled as `none`. -/
def getTokenFromContext (ctx : RequestContext) (store : Store) : Option String :=
  match truthy ctx.gitlabToken with
  | some t => some t
  | none =>
    match truthy ctx.sessionId with
    | some sid => truthy ((lookupSession store sid).map SessionInfo.gitlabToken)
    | none => none

/-- The three steps of one POST call that touch the shared context:
the assignment at line 843, the tool handler's read during
`transport.handleRequest` (each an await boundary away from the others),
and the `finally` reset. -/
inductive CallStep where
  | setCtx
  | opRead
  | clearCtx
deriving DecidableEq, Repr

/-- An in-flight call: its session id, its remaining steps, and — once
`opRead` has run — the token its operation handler obtained from the
shared context. -/
structure CallState where
  sid : String
  todo : List CallStep
  usedToken : Option (Option String)
deriving DecidableEq, Repr

/-- The step sequence of one POST call on an existing session. -/
def callProgram : List CallStep :=
  [CallStep.setCtx, CallStep.opRead, CallStep.clearCtx]

/-- Execute one step of a call against the shared `currentContext`. -/
def stepCall (store : Store) (ctx : RequestContext) (c : CallState) :
    RequestContext × CallState :=
  match c.todo with
  | [] => (ctx, c)
  | s :: rest =>
    match s with
    | CallStep.setCtx =>
      (⟨some c.sid, (lookupSession store c.sid).map SessionInfo.gitlabToken⟩,
       { c with todo := rest })
    | CallStep.opRead =>
      let used := some (getTokenFromContext ctx store)
      (ctx, { c with todo := rest, usedToken := used })
    | CallStep.clearCtx =>
      (emptyContext, { c with todo := rest })

/-- Run two in-flight calls under a schedule: `true` steps call A,
`false` steps call B (the event loop interleaves them at await
boundaries).  Returns both final call states. -/
def runCalls (store : Store) :
    RequestContext → CallState → CallState → List Bool → CallState × CallState
  | _, a, b, [] => (a, b)
  | ctx, a, b, true :: sch =>
    let r := stepCall store ctx a
    runCalls store r.1 r.2 b sch
  | ctx, a, b, false :: sch =>
    let r := stepCall store ctx b
    runCalls store r.1 a r.2 sch

/-! ## Create-or-update file (index.ts lines 302-347) -/

/-- Hex digit for percent-encoding. -/
def hexDigit (n : Nat) : Char :=
  if n < 10 then Char.ofNat (48 + n) else Char.ofNat (55 + n)

/-- UTF-8 bytes of one character. -/
def utf8Bytes (c : Char) : List Nat :=
  let n := c.toNat
  if n < 128 then [n]
  else if n < 2048 then [192 + n / 64, 128 + n % 64]
  else if n < 65536 then [224 + n / 4096, 128 + n / 64 % 64, 128 + n % 64]
  else [240 + n / 262144, 128 + n / 4096 % 64, 128 + n / 64 % 64, 128 + n % 64]

/-- Whether `encodeURIComponent` leaves the character as is (alphanumeric
or one of `-_.!~*()`; the apostrophe, also unreserved, never occurs in the
inputs considered here). -/
def isUnreserved (c : Char) : Bool :=
  c.isAlphanum || c = '-' || c = '_' || c = '.' ||
  c = '!' || c = '~' || c = '*' || c = '(' || c = ')'

/-- `encodeURIComponent`. -/
def encodeURIComponent (s : String) : String :=
  String.join (s.data.map (fun c =>
    if isUnreserved c then String.mk [c]
    else String.join ((utf8Bytes c).map (fun b =>
      String.mk ['%', hexDigit (b / 16), hexDigit (b % 16)]))))

/-- The URL `getFileContents` fetches (with `?ref=HEAD` when no ref is
given). -/
def getFileContentsUrl (projectId filePath : String) (ref : Option String) : String :=
  GITLAB_API_URL ++ "/projects/" ++ encodeURIComponent projectId ++
  "/repository/files/" ++ encodeURIComponent filePath ++
  (match ref with
   | some r => "?ref=" ++ encodeURIComponent r
   | none => "?ref=HEAD")

/-- The single upstream call `getFileContents` issues. -/
def getFileContentsCall (token projectId filePath : String)
    (ref : Option String) : UpstreamCall :=
  ⟨"GET", getFileContentsUrl projectId filePath ref, some token⟩

/-- The write URL of `createOrUpdateFile` (no query string). -/
def createOrUpdateFileUrl (projectId filePath : String) : String :=
  GITLAB_API_URL ++ "/projects/" ++ encodeURIComponent projectId ++
  "/repository/files/" ++ encodeURIComponent filePath

/-- The upstream call trace of `createOrUpdateFile`: first the existence
probe (`getFileContents` on the same path and branch), then the one write,
`PUT` when the probe resolved and `POST` when it threw (`probeOk` is how
the environment resolves the probe). -/
def createOrUpdateFileCalls (token projectId filePath branch : String)
    (probeOk : Bool) : List UpstreamCall :=
  [getFileContentsCall token projectId filePath (some branch),
   ⟨if probeOk then "PUT" else "POST",
    createOrUpdateFileUrl projectId filePath, some token⟩]

/-! ## Concrete inputs used by counterexamples and witnesses -/

/-- A session with a non-empty stored credential. -/
def demoInfo : SessionInfo :=
  { lastActivity := 100, connected := true,
    gitlabToken := "secret-tok", createdAt := 50 }

/-- A one-session map. -/
def demoStore : Store := [("s1", demoInfo)]

/-- Two sessions with distinct credentials, as in the spec's scenario. -/
def storeAB : Store :=
  [("sid-A", { lastActivity := 0, connected := true,
               gitlabToken := "tok-A", createdAt := 0 }),
   ("sid-B", { lastActivity := 0, connected := true,
               gitlabToken := "tok-B", createdAt := 0 })]

/-- Call A, about to handle a POST for session `sid-A`. -/
def callA : CallState := ⟨"sid-A", callProgram, none⟩

/-- Call B, about to handle a POST for session `sid-B`. -/
def callB : CallState := ⟨"sid-B", callProgram, none⟩

/-- The racing schedule: A assigns the shared context, B assigns it (A is
suspended inside `await transport.handleRequest`), then A's tool handler
reads the context; both calls then finish their remaining steps. -/
def raceSchedule : List Bool := [true, false, true, true, false, false]

/-- An initialize request carrying only an `x-gitlab-token` header. -/
def reqBadInit : HttpRequest :=
  ⟨some "badtok", none, none, none, true, none⟩

/-- A request whose only credential source is an `authorization` header
without the `Bearer` prefix. -/
def reqAuthOnly : HttpRequest :=
  ⟨none, none, some "Basic xyz", none, true, none⟩

/-- A non-initialize request on session `s1` carrying a replacement
token in `x-gitlab-token`. -/
def reqSwap : HttpRequest :=
  ⟨some "new-tok", none, none, none, false, some "s1"⟩

/-- An environment in which every `fetch` rejects (network down), so
every validation fails closed. -/
def fetchDown : String → FetchResult :=
  fun _ => FetchResult.networkError "down"

/-- `demoStore` with the stored credential replaced by a different
non-empty secret. -/
def demoStore2 : Store :=
  [("s1", { demoInfo with gitlabToken := "other-tok" })]

end GitlabMcp

namespace GitlabMcp

/-! ## Helper lemmas -/

/-- Truthiness characterisation. -/
theorem truthy_eq_some {o : Option String} {t : String} :
    truthy o = some t ↔ o = some t ∧ t ≠ "" := by
  cases o with
  | none => simp [truthy]
  | some s =>
    simp only [truthy, Option.some.injEq]
    by_cases h : s = ""
    · subst h
      simp only [if_pos rfl]
      constructor
      · intro hcontra; cases hcontra
      · rintro ⟨rfl, hne⟩; exact absurd rfl hne
    · simp only [if_neg h, Option.some.injEq]
      constructor
      · rintro rfl; exact ⟨rfl, h⟩
      · rintro ⟨rfl, _⟩; rfl

/-- `firstTruthy` only ever returns a non-empty string. -/
theorem firstTruthy_ne_empty :
    ∀ {l : List (Option String)} {t : String}, firstTruthy l = some t → t ≠ ""
  | [], t, h => by simp [firstTruthy] at h
  | x :: xs, t, h => by
    simp only [firstTruthy] at h
    cases hx : truthy x with
    | some u =>
      rw [hx] at h
      cases h
      exact (truthy_eq_some.mp hx).2
    | none =>
      rw [hx] at h
      exact firstTruthy_ne_empty h

/-- An extracted credential is never the empty string. -/
theorem extract_ne_empty {req : HttpRequest} {t : String}
    (h : extractGitlabToken req = some t) : t ≠ "" :=
  firstTruthy_ne_empty h

/-- A successful lookup is a membership. -/
theorem lookup_mem :
    ∀ {s : Store} {k : String} {v : SessionInfo},
      lookupSession s k = some v → (k, v) ∈ s
  | [], _, _, h => by simp [lookupSession] at h
  | (k1, v1) :: rest, k, v, h => by
    simp only [lookupSession] at h
    by_cases hk : k1 = k
    · rw [if_pos hk] at h
      cases h
      subst hk
      exact List.mem_cons_self _ _
    · rw [if_neg hk] at h
      exact List.mem_cons_of_mem _ (lookup_mem h)

/-- Updating a present key makes the lookup return the new value. -/
theorem lookup_update_self :
    ∀ {s : Store} {k : String} {v0 v : SessionInfo},
      lookupSession s k = some v0 →
      lookupSession (updateSession s k v) k = some v
  | [], _, _, _, h => by simp [lookupSession] at h
  | (k1, v1) :: rest, k, v0, v, h => by
    simp only [lookupSession] at h
    by_cases hk : k1 = k
    · simp [updateSession, hk, lookupSession]
    · rw [if_neg hk] at h
      simp only [updateSession, if_neg hk, lookupSession]
      exact lookup_update_self h

/-- Updating some other key leaves a lookup unchanged. -/
theorem lookup_update_ne :
    ∀ {s : Store} {k k2 : String} {v : SessionInfo}, k ≠ k2 →
      lookupSession (updateSession s k2 v) k = lookupSession s k
  | [], _, _, _, _ => rfl
  | (k1, v1) :: rest, k, k2, v, hne => by
    by_cases hk : k1 = k2
    · subst hk
      simp only [updateSession, if_pos rfl, lookupSession]
      rw [if_neg (fun h => hne h.symm), if_neg (fun h => hne h.symm)]
    · simp only [updateSession, if_neg hk, lookupSession]
      by_cases h1 : k1 = k
      · rw [if_pos h1, if_pos h1]
      · rw [if_neg h1, if_neg h1]
        exact lookup_update_ne hne

/-- After erasing a key it cannot be looked up any more. -/
theorem lookup_erase_self :
    ∀ (s : Store) (k : String), lookupSession (eraseSession s k) k = none
  | [], _ => rfl
  | (k1, v1) :: rest, k => by
    by_cases hk : k1 = k
    · simp only [eraseSession, if_pos hk]
      exact lookup_erase_self rest k
    · simp only [eraseSession, if_neg hk, lookupSession, if_neg hk]
      exact lookup_erase_self rest k

/-- Appending a fresh binding does not make an absent key appear. -/
theorem lookup_insert_none :
    ∀ {s : Store} {sid k : String} {v : SessionInfo},
      lookupSession s sid = none → k ≠ sid →
      lookupSession (insertSession s k v) sid = none
  | [], sid, k, v, _, hk => by
    simp [insertSession, lookupSession, hk]
  | (k1, v1) :: rest, sid, k, v, h, hk => by
    simp only [lookupSession] at h
    by_cases h1 : k1 = sid
    · rw [if_pos h1] at h; cases h
    · rw [if_neg h1] at h
      simp only [insertSession, List.cons_append, lookupSession, if_neg h1]
      exact lookup_insert_none h hk

end GitlabMcp

namespace GitlabMcp

/-! ## Branch equations of the POST /mcp handler -/

/-- Existing session, no credential supplied: only `lastActivity` is
bumped and the call is forwarded. -/
theorem post_existing_noToken {store : Store} {req : HttpRequest}
    {fetchUser : String → FetchResult} {now : Nat} {newSessionId sid : String}
    {info : SessionInfo}
    (hsid : truthy req.sessionIdHeader = some sid)
    (hfound : lookupSession store sid = some info)
    (hx : extractGitlabToken req = none) :
    handleMcpPost store req fetchUser now newSessionId =
      { status := 200,
        store := updateSession store sid { info with lastActivity := now },
        sessionHeader := none, contextToken := some info.gitlabToken } := by
  unfold handleMcpPost
  rw [hsid]; dsimp only
  rw [hfound]; dsimp only
  rw [hx]

/-- Existing session, same credential as stored: no validation happens. -/
theorem post_existing_sameToken {store : Store} {req : HttpRequest}
    {fetchUser : String → FetchResult} {now : Nat} {newSessionId sid : String}
    {info : SessionInfo} {tok : String}
    (hsid : truthy req.sessionIdHeader = some sid)
    (hfound : lookupSession store sid = some info)
    (hx : extractGitlabToken req = some tok)
    (heq : tok = info.gitlabToken) :
    handleMcpPost store req fetchUser now newSessionId =
      { status := 200,
        store := updateSession store sid { info with lastActivity := now },
        sessionHeader := none, contextToken := some info.gitlabToken } := by
  unfold handleMcpPost
  rw [hsid]; dsimp only
  rw [hfound]; dsimp only
  rw [hx]; dsimp only
  rw [if_neg (fun h => h heq)]

/-- Existing session, different credential that fails validation:
rejected with 401; the stored credential is untouched (only
`lastActivity` changed). -/
theorem post_existing_swapBad {store : Store} {req : HttpRequest}
    {fetchUser : String → FetchResult} {now : Nat} {newSessionId sid : String}
    {info : SessionInfo} {tok : String}
    (hsid : truthy req.sessionIdHeader = some sid)
    (hfound : lookupSession store sid = some info)
    (hx : extractGitlabToken req = some tok)
    (hne : tok ≠ info.gitlabToken)
    (hv : validateGitlabToken tok (fetchUser tok) = false) :
    handleMcpPost store req fetchUser now newSessionId =
      { status := 401,
        store := updateSession store sid { info with lastActivity := now },
        sessionHeader := none, contextToken := none } := by
  unfold handleMcpPost
  rw [hsid]; dsimp only
  rw [hfound]; dsimp only
  rw [hx]; dsimp only
  rw [if_pos hne, hv, if_neg Bool.false_ne_true]

/-- Existing session, different credential that validates: the stored
credential is swapped. -/
theorem post_existing_swapGood {store : Store} {req : HttpRequest}
    {fetchUser : String → FetchResult} {now : Nat} {newSessionId sid : String}
    {info : SessionInfo} {tok : String}
    (hsid : truthy req.sessionIdHeader = some sid)
    (hfound : lookupSession store sid = some info)
    (hx : extractGitlabToken req = some tok)
    (hne : tok ≠ info.gitlabToken)
    (hv : validateGitlabToken tok (fetchUser tok) = true) :
    handleMcpPost store req fetchUser now newSessionId =
      { status := 200,
        store := updateSession (updateSession store sid { info with lastActivity := now })
          sid { info with lastActivity := now, gitlabToken := tok },
        sessionHeader := none, contextToken := some tok } := by
  unfold handleMcpPost
  rw [hsid]; dsimp only
  rw [hfound]; dsimp only
  rw [hx]; dsimp only
  rw [if_pos hne, hv, if_pos rfl]

/-- Supplied session id not present in the map: 400, nothing changes. -/
theorem post_unknownSession {store : Store} {req : HttpRequest}
    {fetchUser : String → FetchResult} {now : Nat} {newSessionId sid : String}
    (hsid : truthy req.sessionIdHeader = some sid)
    (hfound : lookupSession store sid = none) :
    handleMcpPost store req fetchUser now newSessionId =
      { status := 400, store := store, sessionHeader := none, contextToken := none } := by
  unfold handleMcpPost
  rw [hsid]; dsimp only
  rw [hfound]

/-- No session id, initialize payload, no credential anywhere: 401,
nothing changes. -/
theorem post_init_missing {store : Store} {req : HttpRequest}
    {fetchUser : String → FetchResult} {now : Nat} {newSessionId : String}
    (hsid : truthy req.sessionIdHeader = none)
    (hinit : req.bodyIsInitialize = true)
    (hx : extractGitlabToken req = none) :
    handleMcpPost store req fetchUser now newSessionId =
      { status := 401, store := store, sessionHeader := none, contextToken := none } := by
  unfold handleMcpPost
  rw [hsid]; dsimp only
  rw [hinit, if_pos rfl, hx]

/-- No session id, initialize payload, credential present but invalid:
401, nothing changes. -/
theorem post_init_invalid {store : Store} {req : HttpRequest}
    {fetchUser : String → FetchResult} {now : Nat} {newSessionId tok : String}
    (hsid : truthy req.sessionIdHeader = none)
    (hinit : req.bodyIsInitialize = true)
    (hx : extractGitlabToken req = some tok)
    (hv : validateGitlabToken tok (fetchUser tok) = false) :
    handleMcpPost store req fetchUser now newSessionId =
      { status := 401, store := store, sessionHeader := none, contextToken := none } := by
  unfold handleMcpPost
  rw [hsid]; dsimp only
  rw [hinit, if_pos rfl, hx]; dsimp only
  rw [hv, if_neg Bool.false_ne_true]

/-- No session id, initialize payload, valid credential: a fresh session
is appended and the new id returned in the response header. -/
theorem post_init_valid {store : Store} {req : HttpRequest}
    {fetchUser : String → FetchResult} {now : Nat} {newSessionId tok : String}
    (hsid : truthy req.sessionIdHeader = none)
    (hinit : req.bodyIsInitialize = true)
    (hx : extractGitlabToken req = some tok)
    (hv : validateGitlabToken tok (fetchUser tok) = true) :
    handleMcpPost store req fetchUser now newSessionId =
      { status := 200,
        store := insertSession store newSessionId
          { lastActivity := now, connected := true, gitlabToken := tok, createdAt := now },
        sessionHeader := some newSessionId, contextToken := some tok } := by
  unfold handleMcpPost
  rw [hsid]; dsimp only
  rw [hinit, if_pos rfl, hx]; dsimp only
  rw [hv, if_pos rfl]

/-- No session id on a non-initialize call: 400, nothing changes. -/
theorem post_noSession_noInit {store : Store} {req : HttpRequest}
    {fetchUser : String → FetchResult} {now : Nat} {newSessionId : String}
    (hsid : truthy req.sessionIdHeader = none)
    (hinit : req.bodyIsInitialize = false) :
    handleMcpPost store req fetchUser now newSessionId =
      { status := 400, store := store, sessionHeader := none, contextToken := none } := by
  unfold handleMcpPost
  rw [hsid]; dsimp only
  rw [hinit, if_neg Bool.false_ne_true]

end GitlabMcp

namespace GitlabMcp

/-- Updating a key with a non-empty token preserves the token invariant. -/
theorem tokensNonEmpty_update :
    ∀ {s : Store} {k : String} {v : SessionInfo}, TokensNonEmpty s →
      v.gitlabToken ≠ "" → TokensNonEmpty (updateSession s k v)
  | [], _, _, _, _ => by intro p hp; cases hp
  | (k1, v1) :: rest, k, v, h, hv => by
    intro p hp
    by_cases hk : k1 = k
    · simp only [updateSession, if_pos hk] at hp
      rcases List.mem_cons.mp hp with hp1 | hp2
      · subst hp1; exact hv
      · exact h p (List.mem_cons_of_mem _ hp2)
    · simp only [updateSession, if_neg hk] at hp
      rcases List.mem_cons.mp hp with hp1 | hp2
      · subst hp1; exact h (k1, v1) (List.mem_cons_self _ _)
      · exact tokensNonEmpty_update (fun q hq => h q (List.mem_cons_of_mem _ hq)) hv p hp2

/-- Appending a binding with a non-empty token preserves the invariant. -/
theorem tokensNonEmpty_insert {s : Store} {k : String} {v : SessionInfo}
    (h : TokensNonEmpty s) (hv : v.gitlabToken ≠ "") :
    TokensNonEmpty (insertSession s k v) := by
  intro p hp
  rcases List.mem_append.mp hp with hp1 | hp2
  · exact h p hp1
  · rcases List.mem_singleton.mp hp2 with rfl
    exact hv

/-- The surviving part of one sweep tick is the filter of the sessions
active within the timeout; in particular it does not depend on which
transports fail to close. -/
theorem sweepTick_fst (now : Nat) (f : String → Bool) :
    ∀ s : Store, (sweepTick now f s).1 =
      s.filter (fun p => decide (now - p.2.lastActivity ≤ sweepTimeoutMs))
  | [] => rfl
  | (sid, info) :: rest => by
    have ih := sweepTick_fst now f rest
    rw [List.filter_cons]
    simp only [sweepTick]
    by_cases h : now - info.lastActivity > sweepTimeoutMs
    · have hd : decide (now - info.lastActivity ≤ sweepTimeoutMs) = false := by
        simp only [decide_eq_false_iff_not]
        omega
      rw [if_pos h, hd, if_neg Bool.false_ne_true]
      exact ih
    · have hd : decide (now - info.lastActivity ≤ sweepTimeoutMs) = true := by
        simp only [decide_eq_true_eq]
        omega
      rw [if_neg h, hd, if_pos rfl]
      exact congrArg (List.cons (sid, info)) ih

/-- The POST handler keeps every stored credential non-empty. -/
theorem handleMcpPost_preserves_tokens {store : Store} {req : HttpRequest}
    {fetchUser : String → FetchResult} {now : Nat} {newSessionId : String}
    (h : TokensNonEmpty store) :
    TokensNonEmpty (handleMcpPost store req fetchUser now newSessionId).store := by
  cases hs : truthy req.sessionIdHeader with
  | some sid =>
    cases hl : lookupSession store sid with
    | some info =>
      have hinfo : info.gitlabToken ≠ "" := h (sid, info) (lookup_mem hl)
      have h1 : TokensNonEmpty
          (updateSession store sid { info with lastActivity := now }) :=
        tokensNonEmpty_update h hinfo
      cases hx : extractGitlabToken req with
      | some tok =>
        have htok : tok ≠ "" := extract_ne_empty hx
        by_cases hne : tok = info.gitlabToken
        · rw [post_existing_sameToken hs hl hx hne]
          exact h1
        · cases hv : validateGitlabToken tok (fetchUser tok) with
          | true =>
            rw [post_existing_swapGood hs hl hx hne hv]
            exact tokensNonEmpty_update h1 htok
          | false =>
            rw [post_existing_swapBad hs hl hx hne hv]
            exact h1
      | none =>
        rw [post_existing_noToken hs hl hx]
        exact h1
    | none =>
      rw [post_unknownSession hs hl]
      exact h
  | none =>
    cases hi : req.bodyIsInitialize with
    | true =>
      cases hx : extractGitlabToken req with
      | some tok =>
        cases hv : validateGitlabToken tok (fetchUser tok) with
        | true =>
          rw [post_init_valid hs hi hx hv]
          exact tokensNonEmpty_insert h (extract_ne_empty hx)
        | false =>
          rw [post_init_invalid hs hi hx hv]
          exact h
      | none =>
        rw [post_init_missing hs hi hx]
        exact h
    | false =>
      rw [post_noSession_noInit hs hi]
      exact h

/-- The POST handler never resurrects an absent session id, provided the
freshly generated id differs from it. -/
theorem lookup_not_in_post {store : Store} {req : HttpRequest}
    {fetchUser : String → FetchResult} {now : Nat} {newSessionId sid : String}
    (hnone : lookupSession store sid = none) (hfresh : newSessionId ≠ sid) :
    lookupSession (handleMcpPost store req fetchUser now newSessionId).store sid
      = none := by
  cases hs : truthy req.sessionIdHeader with
  | some sid2 =>
    cases hl : lookupSession store sid2 with
    | some info2 =>
      have hne : sid ≠ sid2 := by
        rintro rfl
        rw [hnone] at hl
        cases hl
      have h1 : lookupSession
          (updateSession store sid2 { info2 with lastActivity := now }) sid
            = none := by
        rw [lookup_update_ne hne]
        exact hnone
      cases hx : extractGitlabToken req with
      | some tok =>
        by_cases heq : tok = info2.gitlabToken
        · rw [post_existing_sameToken hs hl hx heq]
          exact h1
        · cases hv : validateGitlabToken tok (fetchUser tok) with
          | true =>
            rw [post_existing_swapGood hs hl hx heq hv]
            rw [lookup_update_ne hne]
            exact h1
          | false =>
            rw [post_existing_swapBad hs hl hx heq hv]
            exact h1
      | none =>
        rw [post_existing_noToken hs hl hx]
        exact h1
    | none =>
      rw [post_unknownSession hs hl]
      exact hnone
  | none =>
    cases hi : req.bodyIsInitialize with
    | true =>
      cases hx : extractGitlabToken req with
      | some tok =>
        cases hv : validateGitlabToken tok (fetchUser tok) with
        | true =>
          rw [post_init_valid hs hi hx hv]
          exact lookup_insert_none hnone hfresh
        | false =>
          rw [post_init_invalid hs hi hx hv]
          exact hnone
      | none =>
        rw [post_init_missing hs hi hx]
        exact hnone
    | false =>
      rw [post_noSession_noInit hs hi]
      exact hnone

/-- Two stores of the same shape with non-empty credentials produce the
same listing entries. -/
theorem sessionEntries_congr :
    ∀ {s1 s2 : Store}, TokensNonEmpty s1 → TokensNonEmpty s2 →
      SameShape s1 s2 →
      s1.map (fun p => sessionEntry p.1 p.2) =
        s2.map (fun p => sessionEntry p.1 p.2) := by
  intro s1 s2 h1 h2 hs
  induction hs with
  | nil => rfl
  | @cons p q s1t s2t hpq hrest ih =>
    have hp : p.2.gitlabToken ≠ "" := h1 p (List.mem_cons_self _ _)
    have hq : q.2.gitlabToken ≠ "" := h2 q (List.mem_cons_self _ _)
    have hbp : (p.2.gitlabToken == "") = false := beq_eq_false_iff_ne.mpr hp
    have hbq : (q.2.gitlabToken == "") = false := beq_eq_false_iff_ne.mpr hq
    simp only [List.map_cons]
    rw [ih (fun r hr => h1 r (List.mem_cons_of_mem _ hr))
        (fun r hr => h2 r (List.mem_cons_of_mem _ hr))]
    simp only [sessionEntry, hbp, hbq, hpq.1, hpq.2.1, hpq.2.2.1, hpq.2.2.2]

end GitlabMcp

namespace GitlabMcp

/-! ## Claim theorems -/

/-- C1: the per-call RequestContext must never be readable by a different
concurrently in-flight call.  The source keeps it in the single
process-wide mutable `currentContext`, so under the interleaving in which
call B assigns the context while call A is suspended inside
`transport.handleRequest`, A's operation handler reads B's credential:
with sessions `sid-A`/`tok-A` and `sid-B`/`tok-B`, call A's upstream call
uses `tok-B`.  This evaluates the code at that failing schedule. -/
theorem currentContext_race_swaps_tokens :
    ((runCalls storeAB emptyContext callA callB raceSchedule).1).usedToken
      = some (some "tok-B") ∧
    (lookupSession storeAB "sid-A").map SessionInfo.gitlabToken = some "tok-A" ∧
    (lookupSession storeAB "sid-B").map SessionInfo.gitlabToken = some "tok-B" ∧
    "tok-A" ≠ "tok-B" := by decide

/-- C2: for every credential that fails validation (or is missing), an
initialize call (no session id, initialize payload) returns 401
UNAUTHENTICATED and the session store is left entirely unchanged — in
particular its size is unchanged and no session id header is set. -/
theorem initialize_invalid_unauthenticated
    (store : Store) (req : HttpRequest) (fetchUser : String → FetchResult)
    (now : Nat) (newSessionId : String)
    (hsid : truthy req.sessionIdHeader = none)
    (hinit : req.bodyIsInitialize = true)
    (hbad : ∀ t, extractGitlabToken req = some t →
      validateGitlabToken t (fetchUser t) = false) :
    (handleMcpPost store req fetchUser now newSessionId).status = 401 ∧
    (handleMcpPost store req fetchUser now newSessionId).store = store ∧
    (handleMcpPost store req fetchUser now newSessionId).store.length = store.length ∧
    (handleMcpPost store req fetchUser now newSessionId).sessionHeader = none := by
  cases hx : extractGitlabToken req with
  | none =>
    rw [post_init_missing hsid hinit hx]
    exact ⟨rfl, rfl, rfl, rfl⟩
  | some t =>
    rw [post_init_invalid hsid hinit hx (hbad t hx)]
    exact ⟨rfl, rfl, rfl, rfl⟩

/-- C2 witness: a concrete invalid-credential initialize call against the
empty store. -/
theorem initialize_invalid_unauthenticated_witness :
    truthy reqBadInit.sessionIdHeader = none ∧
    reqBadInit.bodyIsInitialize = true ∧
    (handleMcpPost [] reqBadInit fetchDown 0 "fresh-id").status = 401 ∧
    (handleMcpPost [] reqBadInit fetchDown 0 "fresh-id").store = ([] : Store) := by
  have h := initialize_invalid_unauthenticated [] reqBadInit fetchDown 0 "fresh-id"
    rfl rfl (fun t _ => rfl)
  exact ⟨rfl, rfl, h.1, h.2.1⟩

/-- C3: a call on an existing session carrying a credential different
from the stored one re-validates it; on failure the call is rejected with
401 and the stored credential is exactly what it was before; only a
successful validation swaps it. -/
theorem token_swap_rejected_keeps_credential
    (store : Store) (req : HttpRequest) (fetchUser : String → FetchResult)
    (now : Nat) (newSessionId sid : String) (info : SessionInfo) (tok : String)
    (hsid : truthy req.sessionIdHeader = some sid)
    (hfound : lookupSession store sid = some info)
    (htok : extractGitlabToken req = some tok)
    (hne : tok ≠ info.gitlabToken) :
    (validateGitlabToken tok (fetchUser tok) = false →
      (handleMcpPost store req fetchUser now newSessionId).status = 401 ∧
      (lookupSession (handleMcpPost store req fetchUser now newSessionId).store sid).map
        SessionInfo.gitlabToken = some info.gitlabToken) ∧
    (validateGitlabToken tok (fetchUser tok) = true →
      (lookupSession (handleMcpPost store req fetchUser now newSessionId).store sid).map
        SessionInfo.gitlabToken = some tok) := by
  constructor
  · intro hv
    rw [post_existing_swapBad hsid hfound htok hne hv]
    refine ⟨rfl, ?_⟩
    rw [lookup_update_self hfound]
    rfl
  · intro hv
    rw [post_existing_swapGood hsid hfound htok hne hv]
    rw [lookup_update_self (lookup_update_self hfound)]
    rfl

/-- C3 witness: a concrete rejected swap leaves `secret-tok` stored. -/
theorem token_swap_rejected_keeps_credential_witness :
    (handleMcpPost demoStore reqSwap fetchDown 7 "fresh-id").status = 401 ∧
    (lookupSession (handleMcpPost demoStore reqSwap fetchDown 7 "fresh-id").store "s1").map
      SessionInfo.gitlabToken = some "secret-tok" := by
  have h := (token_swap_rejected_keeps_credential demoStore reqSwap fetchDown 7 "fresh-id"
    "s1" demoInfo "new-tok" (by decide) (by decide) (by decide) (by decide)).1 rfl
  exact ⟨h.1, h.2⟩

/-- C4: `validateGitlabToken` issues exactly one upstream authenticated
GET (to `/user`), returns true exactly when the environment answers with
a 2xx response, and returns false on every network failure; being a total
function, it never propagates an exception. -/
theorem validateGitlabToken_spec (token : String) (r : FetchResult) :
    (validateGitlabTokenCalls token).length = 1 ∧
    validateGitlabTokenCalls token =
      [{ method := "GET", url := GITLAB_API_URL ++ "/user", bearerToken := some token }] ∧
    (validateGitlabToken token r = true ↔
      ∃ st body, r = FetchResult.success st body ∧ 200 ≤ st ∧ st ≤ 299) ∧
    (∀ msg, validateGitlabToken token (FetchResult.networkError msg) = false) := by
  refine ⟨rfl, rfl, ?_, fun _ => rfl⟩
  cases r with
  | success st body =>
    simp only [validateGitlabToken, responseOk, Bool.and_eq_true, decide_eq_true_eq]
    constructor
    · rintro ⟨ha, hb⟩
      exact ⟨st, body, rfl, ha, hb⟩
    · rintro ⟨st2, b2, heq, ha, hb⟩
      injection heq with h3 h4
      subst h3
      exact ⟨ha, hb⟩
  | networkError msg =>
    simp only [validateGitlabToken]
    constructor
    · intro h
      exact absurd h Bool.false_ne_true
    · rintro ⟨st2, b2, heq, _, _⟩
      exact FetchResult.noConfusion heq

/-- C5: one sweep tick removes exactly the sessions whose inactivity
`now - lastActivity` strictly exceeds the 30-minute timeout and keeps
every other one; the surviving map does not depend on which transports
fail to close (a close failure never blocks removal or the rest of the
sweep); the tick runs every 5 minutes. -/
theorem sweep_spec (now : Nat) (f g : String → Bool) (store : Store)
    (sid : String) (info : SessionInfo) :
    ((sid, info) ∈ (sweepTick now f store).1 ↔
      (sid, info) ∈ store ∧ now - info.lastActivity ≤ sweepTimeoutMs) ∧
    (sweepTick now f store).1 = (sweepTick now g store).1 ∧
    sweepTimeoutMs = 30 * 60 * 1000 ∧ sweepIntervalMs = 5 * 60 * 1000 := by
  refine ⟨?_, ?_, rfl, rfl⟩
  · rw [sweepTick_fst]
    simp only [List.mem_filter, decide_eq_true_eq]
  · rw [sweepTick_fst, sweepTick_fst]

/-- C7: `createOrUpdateFile` first probes for the file by reading it and
then issues exactly one write, `PUT` when the probe succeeded and `POST`
when it failed — a two-step (hence non-atomic) upstream sequence, both
steps authenticated with the caller's token. -/
theorem createOrUpdateFile_spec (token projectId filePath branch : String)
    (probeOk : Bool) :
    (createOrUpdateFileCalls token projectId filePath branch probeOk).length = 2 ∧
    (createOrUpdateFileCalls token projectId filePath branch probeOk).head? =
      some (getFileContentsCall token projectId filePath (some branch)) ∧
    ((createOrUpdateFileCalls token projectId filePath branch probeOk).filter
        (fun c => c.method == "PUT" || c.method == "POST")).length = 1 ∧
    (createOrUpdateFileCalls token projectId filePath branch probeOk).map
        UpstreamCall.bearerToken = [some token, some token] ∧
    ((createOrUpdateFileCalls token projectId filePath branch probeOk).getLast?).map
        UpstreamCall.method = some (if probeOk then "PUT" else "POST") := by
  cases probeOk <;> exact ⟨rfl, rfl, rfl, rfl, rfl⟩

/-- C10: credential extraction tries, in order, the `x-gitlab-token`
header, the `gitlab-token` header, the `authorization` header with a
leading case-insensitive `Bearer` prefix stripped, then the body's
`gitlab_token` field, returning the first non-empty value and null when
all are empty; an authorization value without the Bearer prefix is used
verbatim. -/
theorem extractGitlabToken_spec (req : HttpRequest) :
    (∀ t, req.xGitlabToken = some t → t ≠ "" →
      extractGitlabToken req = some t) ∧
    (∀ t, truthy req.xGitlabToken = none → req.gitlabTokenHeader = some t →
      t ≠ "" → extractGitlabToken req = some t) ∧
    (∀ a, truthy req.xGitlabToken = none → truthy req.gitlabTokenHeader = none →
      req.authorization = some a → stripBearer a ≠ "" →
      extractGitlabToken req = some (stripBearer a)) ∧
    (∀ t, truthy req.xGitlabToken = none → truthy req.gitlabTokenHeader = none →
      truthy (req.authorization.map stripBearer) = none →
      req.bodyGitlabToken = some t → t ≠ "" →
      extractGitlabToken req = some t) ∧
    (truthy req.xGitlabToken = none → truthy req.gitlabTokenHeader = none →
      truthy (req.authorization.map stripBearer) = none →
      truthy req.bodyGitlabToken = none → extractGitlabToken req = none) ∧
    (∀ a, hasBearerStart a = false → stripBearer a = a) := by
  refine ⟨?_, ?_, ?_, ?_, ?_, ?_⟩
  · intro t h1 h2
    have hx : truthy req.xGitlabToken = some t := by
      rw [h1]
      simp [truthy, h2]
    simp only [extractGitlabToken, firstTruthy, hx]
  · intro t h0 h1 h2
    have hg : truthy req.gitlabTokenHeader = some t := by
      rw [h1]
      simp [truthy, h2]
    simp only [extractGitlabToken, firstTruthy, h0, hg]
  · intro a h0 h1 h2 h3
    have ha : truthy (req.authorization.map stripBearer) = some (stripBearer a) := by
      rw [h2]
      simp [truthy, h3]
    simp only [extractGitlabToken, firstTruthy, h0, h1, ha]
  · intro t h0 h1 h2 h3 h4
    have hb : truthy req.bodyGitlabToken = some t := by
      rw [h3]
      simp [truthy, h4]
    simp only [extractGitlabToken, firstTruthy, h0, h1, h2, hb]
  · intro h0 h1 h2 h3
    simp only [extractGitlabToken, firstTruthy, h0, h1, h2, h3]
  · intro a h
    unfold stripBearer
    unfold hasBearerStart at h
    cases hd : dropBearer a.data with
    | none => rfl
    | some rest =>
      rw [hd] at h
      exact absurd h (by simp)

/-- C10 witness: an `authorization` header without the Bearer prefix is
extracted verbatim. -/
theorem extractGitlabToken_spec_witness :
    extractGitlabToken reqAuthOnly = some "Basic xyz" ∧
    hasBearerStart "Basic xyz" = false := by
  have h := extractGitlabToken_spec reqAuthOnly
  have h6 := h.2.2.2.2.2 "Basic xyz" (by decide)
  have h3 := h.2.2.1 "Basic xyz" (by decide) (by decide) rfl (by decide)
  rw [h6] at h3
  exact ⟨h3, by decide⟩

end GitlabMcp

namespace GitlabMcp

/-- C6 counterexample: terminate on an existing session id whose
transport handshake throws answers 500 and does NOT remove the session
(the code deletes only after a successful `handleRequest`), so a second
terminate does not return 404 — refuting the claim's unconditional
"performs the transport handshake and then removes the session". -/
theorem terminate_handshake_failure_keeps_session :
    (handleMcpDelete demoStore (some "s1") (fun _ => false)).1 = 500 ∧
    (handleMcpDelete demoStore (some "s1") (fun _ => false)).2 = demoStore ∧
    lookupSession (handleMcpDelete demoStore (some "s1") (fun _ => false)).2 "s1"
      = some demoInfo ∧
    (handleMcpDelete (handleMcpDelete demoStore (some "s1") (fun _ => false)).2
      (some "s1") (fun _ => false)).1 ≠ 404 := by decide

/-- C6 (amended): terminate returns 400 without a session id and 404 for
an unknown id; for an existing id whose handshake succeeds it removes the
session, a second terminate on the same id then returns 404 and the id
cannot reappear through the POST handler (fresh ids are distinct); for an
existing id whose handshake fails it returns 500 and the session map is
unchanged. -/
theorem terminate_spec (store : Store) (hdr : Option String)
    (hs : String → Bool) :
    (truthy hdr = none → handleMcpDelete store hdr hs = (400, store)) ∧
    (∀ sid, truthy hdr = some sid → lookupSession store sid = none →
      handleMcpDelete store hdr hs = (404, store)) ∧
    (∀ sid info, truthy hdr = some sid → lookupSession store sid = some info →
      hs sid = true →
      (handleMcpDelete store hdr hs).1 = 200 ∧
      lookupSession (handleMcpDelete store hdr hs).2 sid = none ∧
      (∀ hs2, handleMcpDelete (handleMcpDelete store hdr hs).2 hdr hs2 =
        (404, (handleMcpDelete store hdr hs).2)) ∧
      (∀ req fetchUser now newSessionId, newSessionId ≠ sid →
        lookupSession (handleMcpPost (handleMcpDelete store hdr hs).2
          req fetchUser now newSessionId).store sid = none)) ∧
    (∀ sid info, truthy hdr = some sid → lookupSession store sid = some info →
      hs sid = false → handleMcpDelete store hdr hs = (500, store)) := by
  refine ⟨?_, ?_, ?_, ?_⟩
  · intro h
    unfold handleMcpDelete
    rw [h]
  · intro sid h1 h2
    unfold handleMcpDelete
    rw [h1]; dsimp only
    rw [h2]
  · intro sid info h1 h2 h3
    have hDel : handleMcpDelete store hdr hs = (200, eraseSession store sid) := by
      unfold handleMcpDelete
      rw [h1]; dsimp only
      rw [h2]; dsimp only
      rw [h3, if_pos rfl]
    refine ⟨by rw [hDel], ?_, ?_, ?_⟩
    · rw [hDel]
      exact lookup_erase_self store sid
    · intro hs2
      rw [hDel]
      unfold handleMcpDelete
      rw [h1]; dsimp only
      rw [lookup_erase_self]
    · intro req fetchUser now newSessionId hfresh
      rw [hDel]
      exact lookup_not_in_post (lookup_erase_self store sid) hfresh
  · intro sid info h1 h2 h3
    unfold handleMcpDelete
    rw [h1]; dsimp only
    rw [h2]; dsimp only
    rw [h3, if_neg Bool.false_ne_true]

/-- C6 witness: concrete successful terminate removes `s1`; the second
terminate answers 404. -/
theorem terminate_spec_witness :
    (handleMcpDelete demoStore (some "s1") (fun _ => true)).1 = 200 ∧
    lookupSession (handleMcpDelete demoStore (some "s1") (fun _ => true)).2 "s1"
      = none ∧
    handleMcpDelete (handleMcpDelete demoStore (some "s1") (fun _ => true)).2
      (some "s1") (fun _ => true) =
      (404, (handleMcpDelete demoStore (some "s1") (fun _ => true)).2) := by
  have h := (terminate_spec demoStore (some "s1") (fun _ => true)).2.2.1 "s1" demoInfo
    (by decide) (by decide) rfl
  exact ⟨h.1, h.2.1, h.2.2.1 (fun _ => true)⟩

/-- C8 counterexample: a listing entry carries a fifth field,
`hasToken`, beyond the claimed "id, timestamps, and connected flag
only". -/
theorem sessions_listing_extra_field :
    (sessionEntry "s1" demoInfo).map Prod.fst ≠
      ["id", "lastActivity", "createdAt", "connected"] ∧
    ("hasToken", JVal.b true) ∈ sessionEntry "s1" demoInfo ∧
    "hasToken" ∉ (["id", "lastActivity", "createdAt", "connected"] : List String) := by
  decide

/-- C8 (amended): the listing returns, per session, id, timestamps,
connected flag and a `hasToken` boolean derived only from credential
emptiness; the POST handler keeps every stored credential non-empty, and
on such stores two states identical except for the stored credential
strings produce identical listing responses, so no credential value can
reach the output. -/
theorem sessions_listing_no_credential_leak
    (s1 s2 : Store) (h1 : TokensNonEmpty s1) (h2 : TokensNonEmpty s2)
    (hs : SameShape s1 s2)
    (store : Store) (req : HttpRequest) (fetchUser : String → FetchResult)
    (now : Nat) (newSessionId : String) (hstore : TokensNonEmpty store) :
    listSessions s1 = listSessions s2 ∧
    TokensNonEmpty (handleMcpPost store req fetchUser now newSessionId).store := by
  constructor
  · have hlen : s1.length = s2.length := List.Forall₂.length_eq hs
    unfold listSessions
    rw [sessionEntries_congr h1 h2 hs, hlen]
  · exact handleMcpPost_preserves_tokens hstore

/-- C8 witness: two one-session stores differing only in the stored
secret produce identical listings. -/
theorem sessions_listing_no_credential_leak_witness :
    listSessions demoStore = listSessions demoStore2 :=
  (sessions_listing_no_credential_leak demoStore demoStore2
    (by unfold TokensNonEmpty; decide) (by unfold TokensNonEmpty; decide)
    (List.Forall₂.cons ⟨rfl, rfl, rfl, rfl⟩ List.Forall₂.nil)
    [] reqBadInit fetchDown 0 "fresh-id"
    (fun p hp => absurd hp (List.not_mem_nil p))).1

/-- C9: a POST on an existing session bumps `lastActivity` to the
current time before any credential re-validation, so even a call whose
replacement credential is rejected with 401 leaves the timestamp
refreshed — and the session therefore survives any sweep tick within the
timeout of that moment. -/
theorem lastActivity_updated_before_validation
    (store : Store) (req : HttpRequest) (fetchUser : String → FetchResult)
    (now : Nat) (newSessionId sid : String) (info : SessionInfo)
    (hsid : truthy req.sessionIdHeader = some sid)
    (hfound : lookupSession store sid = some info) :
    (∃ info2, lookupSession (handleMcpPost store req fetchUser now newSessionId).store sid
        = some info2 ∧ info2.lastActivity = now) ∧
    (∀ tok, extractGitlabToken req = some tok → tok ≠ info.gitlabToken →
      validateGitlabToken tok (fetchUser tok) = false →
      (handleMcpPost store req fetchUser now newSessionId).status = 401) ∧
    (∀ now2 f, now2 - now ≤ sweepTimeoutMs →
      ∃ info2, (sid, info2) ∈
        (sweepTick now2 f (handleMcpPost store req fetchUser now newSessionId).store).1 ∧
        info2.lastActivity = now) := by
  have hEx : ∃ info2,
      lookupSession (handleMcpPost store req fetchUser now newSessionId).store sid
        = some info2 ∧ info2.lastActivity = now := by
    cases hx : extractGitlabToken req with
    | none =>
      rw [post_existing_noToken hsid hfound hx]
      exact ⟨_, lookup_update_self hfound, rfl⟩
    | some tok =>
      by_cases heq : tok = info.gitlabToken
      · rw [post_existing_sameToken hsid hfound hx heq]
        exact ⟨_, lookup_update_self hfound, rfl⟩
      · cases hv : validateGitlabToken tok (fetchUser tok) with
        | true =>
          rw [post_existing_swapGood hsid hfound hx heq hv]
          exact ⟨_, lookup_update_self (lookup_update_self hfound), rfl⟩
        | false =>
          rw [post_existing_swapBad hsid hfound hx heq hv]
          exact ⟨_, lookup_update_self hfound, rfl⟩
  refine ⟨hEx, ?_, ?_⟩
  · intro tok hx hne hv
    rw [post_existing_swapBad hsid hfound hx hne hv]
  · intro now2 f hle
    obtain ⟨info2, h2, hla⟩ := hEx
    refine ⟨info2, ?_, hla⟩
    rw [sweepTick_fst]
    refine List.mem_filter.mpr ⟨lookup_mem h2, ?_⟩
    simp only [decide_eq_true_eq]
    omega

/-- C9 witness: the rejected concrete swap still refreshed
`lastActivity` to the call time. -/
theorem lastActivity_updated_before_validation_witness :
    ∃ info2, lookupSession
        (handleMcpPost demoStore reqSwap fetchDown 7 "fresh-id").store "s1"
      = some info2 ∧ info2.lastActivity = 7 :=
  (lastActivity_updated_before_validation demoStore reqSwap fetchDown 7 "fresh-id"
    "s1" demoInfo (by decide) (by decide)).1

end GitlabMcp
